import Mathlib

/-!
Verification of the `nt_data` market-data client against its design
specification.

The development shallowly embeds the parts of the code the claims are
about:

* `src/nt_data/connectors/ninjatrader_client.py` — the timeframe parser
  `_timeframe_to_timedelta`, the simulated historical generator, the
  simulated subscription state machine, and the file-handshake
  (`KinetickEODClient`) request/poll/parse protocol;
* `src/nt_data/services/storage_service.py` — the SQLite row conversion
  and filtered retrieval.

Conventions: `datetime` values are modelled as integers (seconds for the
simulated generator; `isoformat` is injective and order-preserving on the
timestamps the program produces, so textual comparison in SQL is modelled
as integer comparison); prices are modelled as rationals; a raised Python
exception is an `Except.error` / `Option.none`; `random` draws are
arbitrary parameters constrained to the documented ranges of the drawing
functions.
-/

namespace NtData

/-- Error taxonomy of the repository: `ConnectionError` (spec name
`ConnectionFailure`), `NotImplementedError` (spec name
`UnsupportedOperation`), `TimeoutError` (spec name `Timeout`), and
`ValueError` for parse failures. -/
inductive NTError where
  | connectionFailure
  | unsupportedOperation
  | timeout
  | valueError
  deriving DecidableEq

/-- Embedding of `models/tick.py` `TickData`: all price/volume fields
optional. `time` is the integer model of the `datetime`. -/
structure TickData where
  time : ℤ
  bid : Option ℚ
  ask : Option ℚ
  last : Option ℚ
  volume : Option ℤ
  instrument : String
  deriving DecidableEq

/-- Embedding of `models/bar.py` `BarData`. The Python field `open` is a
Lean keyword, hence `open_`. `time` is the integer model of the
`datetime` (seconds for simulated bars, an encoded calendar date for
parsed EOD bars). -/
structure BarData where
  time : ℤ
  open_ : ℚ
  high : ℚ
  low : ℚ
  close : ℚ
  volume : ℤ
  instrument : String
  timeframe : String
  deriving DecidableEq

/-- Accumulate decimal digits; `none` on the first non-digit character
(models `int()` raising `ValueError`). -/
def parseDigitsAux : List Char → ℕ → Option ℕ
  | [], acc => some acc
  | c :: cs, acc =>
    if c.isDigit then parseDigitsAux cs (10 * acc + (c.toNat - 48)) else none

/-- Value of a non-empty all-digit character list; `none` otherwise. -/
def parseDigits (cs : List Char) : Option ℕ :=
  match cs with
  | [] => none
  | _ => parseDigitsAux cs 0

/-- Model of Python `int(s)` on the strings `_timeframe_to_timedelta`
passes it: an optional minus sign followed by decimal digits; `none`
models a raised `ValueError`. -/
def intOfChars (cs : List Char) : Option ℤ :=
  if cs.head? = some '-' then (parseDigits cs.tail).map (fun n => -(n : ℤ))
  else (parseDigits cs).map (fun n => (n : ℤ))

/-- Embedding of `_timeframe_to_timedelta`; the result is the interval in
seconds. `none` models a raised exception (`IndexError` on the empty
string, `ValueError` from `int()` on a malformed prefix). The branch
order (`m`, `h`, `s`, fallback 1 minute) follows the source. -/
def timeframe_to_timedelta (timeframe : String) : Option ℤ :=
  match timeframe.toList.getLast? with
  | none => none
  | some unit =>
    let pre := timeframe.toList.dropLast
    match (if pre = [] then some 1 else intOfChars pre) with
    | none => none
    | some value =>
      if unit = 'm' then some (60 * value)
      else if unit = 'h' then some (3600 * value)
      else if unit = 's' then some value
      else some 60

/-- Per-iteration random draws of the simulated historical generator
(`SimulatedNinjaTraderClient.request_historical_data`): `highOff n` and
`lowOff n` model the two `random.uniform(0, 5)` calls of iteration `n`;
`closeFrac n` models the fraction `random.random()` through which
`random.uniform(low, high)` computes `low + (high - low) * random()`;
`vol n` models `random.randint(10, 1000)`. -/
structure SimDraws where
  highOff : ℕ → ℚ
  lowOff : ℕ → ℚ
  closeFrac : ℕ → ℚ
  vol : ℕ → ℤ

/-- Model of Python `round(x, 2)`: round to 2 decimal places. Mathlib's
`round` resolves ties upward where Python rounds half to even; both are
monotone functions, which is all the claims about rounded fields use. -/
def round2 (q : ℚ) : ℚ := (round (q * 100) : ℚ) / 100

/-- The unrounded close of one simulated historical iteration:
`random.uniform(low, high) = low + (high - low) * random()` at
`low = price - lowOff n`, `high = price + highOff n`. -/
def simClose (price : ℚ) (d : SimDraws) (n : ℕ) : ℚ :=
  (price - d.lowOff n) +
    d.closeFrac n * ((price + d.highOff n) - (price - d.lowOff n))

/-- The bar appended by one iteration of the simulated historical loop:
all four prices are stored rounded to 2 decimals. -/
def simBar (inst tf : String) (cur : ℤ) (price : ℚ) (d : SimDraws) (n : ℕ) :
    BarData :=
  { time := cur
    open_ := round2 price
    high := round2 (price + d.highOff n)
    low := round2 (price - d.lowOff n)
    close := round2 (simClose price d n)
    volume := d.vol n
    instrument := inst
    timeframe := tf }

/-- Embedding of the `while current < end` loop of
`SimulatedNinjaTraderClient.request_historical_data`: emit a bar, advance
`current` by `delta`, and continue the walk from the unrounded close.
The source loop does not terminate when `delta ≤ 0` and `cur < endT`
(`current` never reaches `end`); the model returns `[]` on that region
and no theorem below appeals to it. -/
def simHistAux (d : SimDraws) (inst tf : String) (delta endT : ℤ)
    (cur : ℤ) (price : ℚ) (n : ℕ) : List BarData :=
  if h : 0 < delta ∧ cur < endT then
    simBar inst tf cur price d n ::
      simHistAux d inst tf delta endT (cur + delta) (simClose price d n) (n + 1)
  else []
termination_by (endT - cur).toNat
decreasing_by
  obtain ⟨h1, h2⟩ := h
  omega

/-- Embedding of `SimulatedNinjaTraderClient.request_historical_data`:
connection check, timeframe-derived interval, then the generation loop
seeded at `price0` (the `random.uniform(1000, 5000)` seed). -/
def SimulatedNinjaTraderClient.request_historical_data (connected : Bool)
    (d : SimDraws) (inst tf : String) (start endT : ℤ) (price0 : ℚ) :
    Except NTError (List BarData) :=
  if !connected then .error .connectionFailure
  else
    match timeframe_to_timedelta tf with
    | none => .error .valueError
    | some delta => .ok (simHistAux d inst tf delta endT start price0 0)

/-- State of a `SimulatedNinjaTraderClient`: the `is_connected` flag, the
connector-wide `_stop_event`, and the `_subscriptions` list
(instrument paired with an identifier standing for the subscription's
own stop event / thread). -/
structure SimState where
  connected : Bool
  stop_event : Bool
  subscriptions : List (String × ℕ)
  deriving DecidableEq

/-- Embedding of `SimulatedNinjaTraderClient.connect`: flips the flag to
connected (the latency sleep has no state effect). It does not touch
`_stop_event`. -/
def SimulatedNinjaTraderClient.connect (s : SimState) : SimState :=
  { s with connected := true }

/-- Embedding of `SimulatedNinjaTraderClient.disconnect`: sets the
connector-wide stop event, signals and joins every subscription loop,
clears the subscription list and flips to disconnected. -/
def SimulatedNinjaTraderClient.disconnect (s : SimState) : SimState :=
  { s with stop_event := true, subscriptions := [], connected := false }

/-- Embedding of `SimulatedNinjaTraderClient.subscribe_market_data`:
`ConnectionError` when not connected (before any thread is spawned or the
subscription list touched), otherwise the new loop is registered. The
returned pair is (raised error or unit, state after the call). -/
def SimulatedNinjaTraderClient.subscribe_market_data (s : SimState)
    (instrument : String) (subId : ℕ) : Except NTError Unit × SimState :=
  if !s.connected then (.error .connectionFailure, s)
  else (.ok (), { s with subscriptions := s.subscriptions ++ [(instrument, subId)] })

/-- Embedding of the `cancel` closure returned by `subscribe_market_data`:
sets the per-subscription stop event, joins, and removes that
subscription from the list. -/
def SimulatedNinjaTraderClient.cancel (s : SimState) (subId : ℕ) : SimState :=
  { s with subscriptions := s.subscriptions.filter (fun sub => sub.2 != subId) }

/-- Number of ticks the `_stream` loop delivers within `fuel` iterations,
starting from the `k`-th iteration: the loop checks
`stop_event.is_set() or self._stop_event.is_set()` before each emission
and exits when either reads true. `persStop j` / `connStop j` are the two
flags' values at the `j`-th check. -/
def streamDeliveredCount : ℕ → (ℕ → Bool) → (ℕ → Bool) → ℕ → ℕ
  | 0, _, _, _ => 0
  | fuel + 1, persStop, connStop, k =>
    if persStop k || connStop k then 0
    else streamDeliveredCount fuel persStop connStop (k + 1) + 1

/-- Split a character list at every occurrence of `sep` (model of the
line/field splitting `csv.DictReader` performs on the quote-free export
files of the EOD protocol). -/
def splitOnChar (sep : Char) : List Char → List (List Char)
  | [] => [[]]
  | c :: cs =>
    match splitOnChar sep cs with
    | [] => [[c]]
    | g :: gs => if c = sep then [] :: g :: gs else (c :: g) :: gs

/-- The cells of a delimited export file: lines split on newline, fields
split on commas. -/
def csvCells (content : String) : List (List String) :=
  (splitOnChar '\n' content.toList).map
    (fun line => (splitOnChar ',' line).map String.mk)

/-- Header row of an export file (what `csv.DictReader` uses as field
names). -/
def csvHeader (content : String) : List String :=
  match csvCells content with
  | [] => []
  | h :: _ => h

/-- Data rows of an export file; blank lines are skipped as
`csv.DictReader` does. -/
def csvRows (content : String) : List (List String) :=
  match csvCells content with
  | [] => []
  | _ :: t => t.filter (fun fields => fields != [""])

/-- Model of `row.get(key)` on a `csv.DictReader` row: the value under
`key`'s column. A row shorter than the header leaves the trailing keys
valueless (`None` in Python), which the call sites below turn into the
same results as an absent key, so both are `none` here. -/
def rowGet (header fields : List String) (key : String) : Option String :=
  ((header.zip fields).find? (fun p => p.1 == key)).map (fun p => p.2)

/-- Model of Python `float()` on the plain decimal strings of export
files: an optional minus sign, then digits with at most one decimal
point and at least one digit. `none` models a raised `ValueError`. -/
def parseFloatAux (neg : Bool) (body : List Char) : Option ℚ :=
  match splitOnChar '.' body with
  | [ip] => (parseDigits ip).map (fun n => if neg then -(n : ℚ) else (n : ℚ))
  | [ip, fp] =>
    match (if ip = [] then some 0 else parseDigits ip),
        (if fp = [] then some 0 else parseDigits fp) with
    | some i, some f =>
      if ip = [] ∧ fp = [] then none
      else
        some (if neg then -((i : ℚ) + (f : ℚ) / (10 : ℚ) ^ fp.length)
              else (i : ℚ) + (f : ℚ) / (10 : ℚ) ^ fp.length)
    | _, _ => none
  | _ => none

def parseFloat (s : String) : Option ℚ :=
  match s.toList with
  | '-' :: body => parseFloatAux true body
  | body => parseFloatAux false body

/-- Model of Python `int()` applied to a float: truncation toward zero. -/
def ratTruncate (q : ℚ) : ℤ := if 0 ≤ q then ⌊q⌋ else ⌈q⌉

/-- Model of `float(row.get(key, 0.0) or 0.0)` in `_parse_export`: an
absent column or an empty value defaults to 0; otherwise the value must
parse (`none` models the `ValueError` propagating). -/
def getNum (header fields : List String) (key : String) : Option ℚ :=
  match rowGet header fields key with
  | none => some 0
  | some v => if v = "" then some 0 else parseFloat v

/-- Model of `row.get("Date") or row.get("date")` followed by the
`if not date_value: continue` guard: `none` means the row is skipped. -/
def getDateValue (header fields : List String) : Option String :=
  let dv :=
    match rowGet header fields "Date" with
    | some v => if v ≠ "" then some v else rowGet header fields "date"
    | none => rowGet header fields "date"
  match dv with
  | some v => if v = "" then none else some v
  | none => none

def digitVal (c : Char) : ℕ := c.toNat - 48

/-- Model of `datetime.fromisoformat` / `strptime("%Y-%m-%d")` restricted
to the plain `YYYY-MM-DD` dates of the EOD export protocol; the date is
encoded injectively as `y * 10000 + month * 100 + day`. Full
calendar day-of-month validation is elided (`day ≤ 31`); `none` models a
raised `ValueError`. -/
def parseDate (s : String) : Option ℤ :=
  match s.toList with
  | [y1, y2, y3, y4, '-', m1, m2, '-', e1, e2] =>
    if y1.isDigit && y2.isDigit && y3.isDigit && y4.isDigit &&
        m1.isDigit && m2.isDigit && e1.isDigit && e2.isDigit then
      let y := 1000 * digitVal y1 + 100 * digitVal y2 + 10 * digitVal y3 + digitVal y4
      let mo := 10 * digitVal m1 + digitVal m2
      let dy := 10 * digitVal e1 + digitVal e2
      if 1 ≤ mo ∧ mo ≤ 12 ∧ 1 ≤ dy ∧ dy ≤ 31 then
        some ((y : ℤ) * 10000 + (mo : ℤ) * 100 + (dy : ℤ))
      else none
    else none
  | _ => none

/-- The five numeric fields `_parse_export` reads from a row, in source
order. -/
def rowNums (header fields : List String) : Option (ℚ × ℚ × ℚ × ℚ × ℚ) := do
  let o ← getNum header fields "Open"
  let hi ← getNum header fields "High"
  let lo ← getNum header fields "Low"
  let cl ← getNum header fields "Close"
  let vo ← getNum header fields "Volume"
  pure (o, hi, lo, cl, vo)

/-- The row loop of `KinetickEODClient._parse_export`: rows without a date
value are skipped; a date or number that fails to parse raises
(`ValueError` aborts the whole call); each kept row becomes a bar tagged
with the requested instrument and the fixed timeframe label "1D". -/
def parseRows (header : List String) (instrument : String) :
    List (List String) → Except NTError (List BarData)
  | [] => .ok []
  | fields :: rest =>
    match getDateValue header fields with
    | none => parseRows header instrument rest
    | some dv =>
      match parseDate dv, rowNums header fields with
      | some t, some (o, hi, lo, cl, vo) =>
        match parseRows header instrument rest with
        | .ok bs =>
          .ok ({ time := t, open_ := o, high := hi, low := lo, close := cl,
                 volume := ratTruncate vo, instrument := instrument,
                 timeframe := "1D" } :: bs)
        | .error e => .error e
      | _, _ => .error .valueError

/-- Embedding of `KinetickEODClient._parse_export`. -/
def parse_export (content : String) (instrument : String) :
    Except NTError (List BarData) :=
  parseRows (csvHeader content) instrument (csvRows content)

/-- Directory configuration of a `KinetickEODClient`. -/
structure KinetickConfig where
  commands_dir : String
  export_dir : String

/-- The command file path `cmd_<id>.txt` inside the commands directory. -/
def cmd_path (cfg : KinetickConfig) (commandId : String) : String :=
  cfg.commands_dir ++ "/cmd_" ++ commandId ++ ".txt"

/-- The export file path `<id>.csv` inside the export directory. -/
def export_path (cfg : KinetickConfig) (commandId : String) : String :=
  cfg.export_dir ++ "/" ++ commandId ++ ".csv"

/-- The semicolon-joined command payload written to the command file. -/
def commandPayload (instrument startD endD exportP : String) : String :=
  String.intercalate ";" ["DOWNLOAD", instrument, startD, endD, exportP]

/-- The commands directory modelled as an association list from path to
content; `write_text` overwrites. -/
def fsWrite (fs : List (String × String)) (path content : String) :
    List (String × String) :=
  (path, content) :: fs.filter (fun p => p.1 != path)

/-- `Path.unlink(missing_ok=True)`. -/
def fsRemove (fs : List (String × String)) (path : String) :
    List (String × String) :=
  fs.filter (fun p => p.1 != path)

def fsLookup (fs : List (String × String)) (path : String) : Option String :=
  (fs.find? (fun p => p.1 == path)).map (fun p => p.2)

/-- Embedding of `KinetickEODClient._wait_for_export`: poll the export
directory up to `fuel` times (the number of poll iterations the
configured total timeout allows), starting at check `k`; `env j` is the
export file's content at the `j`-th existence check, `none` while the
external agent has not produced it. Deletion of the export file after a
successful parse acts on the agent-owned export directory and is not
tracked. A `Timeout` (`TimeoutError`) is raised when the deadline passes
with no file. -/
def wait_for_export (env : ℕ → Option String) (instrument : String) :
    ℕ → ℕ → Except NTError (List BarData)
  | 0, _ => .error .timeout
  | fuel + 1, k =>
    match env k with
    | some content => parse_export content instrument
    | none => wait_for_export env instrument fuel (k + 1)

/-- Embedding of `KinetickEODClient.request_historical_data`: connection
check, command-file write, poll for the export, and the `finally` block
that unconditionally removes the command file. Returns the call's result
(bars or raised error) together with the commands directory afterwards.
The `timeframe` argument only triggers a warning in the source and is
otherwise unused. -/
def KinetickEODClient.request_historical_data (connected : Bool)
    (cfg : KinetickConfig) (fs : List (String × String)) (commandId : String)
    (env : ℕ → Option String) (maxPolls : ℕ)
    (instrument timeframe startD endD : String) :
    Except NTError (List BarData) × List (String × String) :=
  if !connected then (.error .connectionFailure, fs)
  else
    let cpath := cmd_path cfg commandId
    let fs1 := fsWrite fs cpath
      (commandPayload instrument startD endD (export_path cfg commandId))
    let res := wait_for_export env instrument maxPolls 0
    (res, fsRemove fs1 cpath)

/-- A row of the `ticks` table (`instrument, time, bid, ask, last,
volume`); `time` stands for the stored `isoformat` text, which is
injective and order-preserving on the program's timestamps. -/
structure TickRow where
  instrument : String
  time : ℤ
  bid : Option ℚ
  ask : Option ℚ
  last : Option ℚ
  volume : Option ℤ
  deriving DecidableEq

/-- A row of the `bars` table. -/
structure BarRow where
  instrument : String
  timeframe : String
  time : ℤ
  open_ : ℚ
  high : ℚ
  low : ℚ
  close : ℚ
  volume : ℤ
  deriving DecidableEq

/-- The tuple `save_ticks` inserts for one tick. -/
def tick_to_row (t : TickData) : TickRow :=
  { instrument := t.instrument, time := t.time, bid := t.bid, ask := t.ask,
    last := t.last, volume := t.volume }

/-- Embedding of `SQLiteStorageBackend._row_to_tick`. -/
def row_to_tick (r : TickRow) : TickData :=
  { time := r.time, bid := r.bid, ask := r.ask, last := r.last,
    volume := r.volume, instrument := r.instrument }

/-- The tuple `save_bars` inserts for one bar. -/
def bar_to_row (b : BarData) : BarRow :=
  { instrument := b.instrument, timeframe := b.timeframe, time := b.time,
    open_ := b.open_, high := b.high, low := b.low, close := b.close,
    volume := b.volume }

/-- Embedding of `SQLiteStorageBackend._row_to_bar`. -/
def row_to_bar (r : BarRow) : BarData :=
  { time := r.time, open_ := r.open_, high := r.high, low := r.low,
    close := r.close, volume := r.volume, instrument := r.instrument,
    timeframe := r.timeframe }

/-- The two append-only tables of the SQLite database. -/
structure StorageState where
  ticks : List TickRow
  bars : List BarRow
  deriving DecidableEq

/-- Embedding of `SQLiteStorageBackend.save_ticks`: no-op returning 0 on
empty input, else one atomic batch append returning the row count. -/
def save_ticks (s : StorageState) (ticks : List TickData) : ℕ × StorageState :=
  if ticks = [] then (0, s)
  else (ticks.length, { s with ticks := s.ticks ++ ticks.map tick_to_row })

/-- Embedding of `SQLiteStorageBackend.save_bars`. -/
def save_bars (s : StorageState) (bars : List BarData) : ℕ × StorageState :=
  if bars = [] then (0, s)
  else (bars.length, { s with bars := s.bars ++ bars.map bar_to_row })

/-- Python truthiness of the optional string filters: `None` and the empty
string are both falsy, so `""` adds no WHERE clause. -/
def strTruthy : Option String → Bool
  | none => false
  | some s => s != ""

/-- Python truthiness of the optional datetime bounds: a `datetime` object
is always truthy, so only `None` omits the clause. -/
def dtTruthy : Option ℤ → Bool
  | none => false
  | some _ => true

/-- Python truthiness of the optional integer limit: 0 is falsy, so
`limit=0` appends no LIMIT clause. -/
def intTruthy : Option ℤ → Bool
  | none => false
  | some n => n != 0

/-- The WHERE clauses `fetch_ticks` builds, applied to one row. -/
def tickRowMatches (instrument : Option String) (start endT : Option ℤ)
    (r : TickRow) : Bool :=
  (!strTruthy instrument || r.instrument == instrument.getD "") &&
  (!dtTruthy start || decide (start.getD 0 ≤ r.time)) &&
  (!dtTruthy endT || decide (r.time ≤ endT.getD 0))

/-- The WHERE clauses `fetch_bars` builds, applied to one row. -/
def barRowMatches (instrument timeframe : Option String) (start endT : Option ℤ)
    (r : BarRow) : Bool :=
  (!strTruthy instrument || r.instrument == instrument.getD "") &&
  (!strTruthy timeframe || r.timeframe == timeframe.getD "") &&
  (!dtTruthy start || decide (start.getD 0 ≤ r.time)) &&
  (!dtTruthy endT || decide (r.time ≤ endT.getD 0))

/-- Stable insertion used to model `ORDER BY time` (ascending). -/
def insertByTime {α : Type} (key : α → ℤ) (r : α) : List α → List α
  | [] => [r]
  | x :: xs => if key x ≤ key r then x :: insertByTime key r xs else r :: x :: xs

/-- Stable sort by time, ascending: the model of `ORDER BY time`. -/
def sortByTime {α : Type} (key : α → ℤ) : List α → List α
  | [] => []
  | r :: rest => insertByTime key r (sortByTime key rest)

/-- The LIMIT clause: only appended when `limit` is truthy; SQLite treats
a negative LIMIT as no limit. -/
def applyLimit {α : Type} (limit : Option ℤ) (rows : List α) : List α :=
  if intTruthy limit then
    if 0 ≤ limit.getD 0 then rows.take (limit.getD 0).toNat else rows
  else rows

/-- Embedding of `SQLiteStorageBackend.fetch_ticks`: filter, order by
time, limit, and convert rows back through `_row_to_tick`. -/
def fetch_ticks (s : StorageState) (instrument : Option String)
    (start endT : Option ℤ) (limit : Option ℤ) : List TickData :=
  (applyLimit limit
      (sortByTime (fun r => r.time)
        (s.ticks.filter (tickRowMatches instrument start endT)))).map row_to_tick

/-- Embedding of `SQLiteStorageBackend.fetch_bars`. -/
def fetch_bars (s : StorageState) (instrument timeframe : Option String)
    (start endT : Option ℤ) (limit : Option ℤ) : List BarData :=
  (applyLimit limit
      (sortByTime (fun r => r.time)
        (s.bars.filter (barRowMatches instrument timeframe start endT)))).map
    row_to_bar

end NtData

namespace NtData

/-- The timeframe of the form digits ++ unit derives exactly that many
seconds, minutes or hours (claim C2, main part). -/
theorem claim_C2 (ds : List Char) (n : ℕ) (u : Char)
    (hds : parseDigits ds = some n)
    (hu : u ≠ 'm' ∧ u ≠ 'h' ∧ u ≠ 's') :
    timeframe_to_timedelta (String.mk (ds ++ ['s'])) = some (n : ℤ) ∧
    timeframe_to_timedelta (String.mk (ds ++ ['m'])) = some (60 * (n : ℤ)) ∧
    timeframe_to_timedelta (String.mk (ds ++ ['h'])) = some (3600 * (n : ℤ)) ∧
    timeframe_to_timedelta "s" = some 1 ∧
    timeframe_to_timedelta "m" = some 60 ∧
    timeframe_to_timedelta "h" = some 3600 ∧
    timeframe_to_timedelta (String.mk (ds ++ [u])) = some 60 := by
  have hne : ds ≠ [] := by
    intro h
    rw [h] at hds
    simp [parseDigits] at hds
  have hdash : ('-').isDigit = false := by decide
  have hhead : ds.head? ≠ some '-' := by
    intro h
    cases ds with
    | nil => simp at h
    | cons c cs =>
      simp [List.head?] at h
      subst h
      simp [parseDigits, parseDigitsAux, hdash] at hds
  have hint : intOfChars ds = some (n : ℤ) := by
    rw [intOfChars, if_neg hhead, hds]
    rfl
  refine ⟨?_, ?_, ?_, by decide, by decide, by decide, ?_⟩ <;>
    simp [timeframe_to_timedelta, String.toList, List.getLast?_concat,
      List.dropLast_concat, hne, hint, hu.1, hu.2.1, hu.2.2]

/-- Witness for C2 at the concrete timeframe prefix "15" and unit 'x'. -/
theorem claim_C2_witness :
    timeframe_to_timedelta (String.mk (['1', '5'] ++ ['s'])) = some ((15 : ℕ) : ℤ) ∧
    timeframe_to_timedelta (String.mk (['1', '5'] ++ ['m'])) = some (60 * ((15 : ℕ) : ℤ)) ∧
    timeframe_to_timedelta (String.mk (['1', '5'] ++ ['h'])) = some (3600 * ((15 : ℕ) : ℤ)) ∧
    timeframe_to_timedelta "s" = some 1 ∧
    timeframe_to_timedelta "m" = some 60 ∧
    timeframe_to_timedelta "h" = some 3600 ∧
    timeframe_to_timedelta (String.mk (['1', '5'] ++ ['x'])) = some 60 :=
  claim_C2 ['1', '5'] 15 'x' (by decide) (by decide)

theorem simHistAux_eq_nil (d : SimDraws) (inst tf : String) (delta endT cur : ℤ)
    (price : ℚ) (n : ℕ) (h : ¬(0 < delta ∧ cur < endT)) :
    simHistAux d inst tf delta endT cur price n = [] := by
  rw [simHistAux]
  exact dif_neg h

theorem simHistAux_eq_cons (d : SimDraws) (inst tf : String) (delta endT cur : ℤ)
    (price : ℚ) (n : ℕ) (h1 : 0 < delta) (h2 : cur < endT) :
    simHistAux d inst tf delta endT cur price n =
      simBar inst tf cur price d n ::
        simHistAux d inst tf delta endT (cur + delta) (simClose price d n) (n + 1) := by
  rw [simHistAux]
  exact dif_pos ⟨h1, h2⟩

/-- Bar `i` of the simulated historical loop sits at time `cur + i * delta`,
strictly before `endT`. -/
theorem simHistAux_getElem_time (d : SimDraws) (inst tf : String)
    (delta endT : ℤ) (hδ : 0 < delta) :
    ∀ (i : ℕ) (cur : ℤ) (price : ℚ) (n : ℕ) (b : BarData),
      (simHistAux d inst tf delta endT cur price n)[i]? = some b →
      b.time = cur + (i : ℤ) * delta ∧ cur + (i : ℤ) * delta < endT := by
  intro i
  induction i with
  | zero =>
    intro cur price n b hb
    by_cases h2 : cur < endT
    · rw [simHistAux_eq_cons d inst tf delta endT cur price n hδ h2] at hb
      simp at hb
      subst hb
      simpa [simBar] using h2
    · rw [simHistAux_eq_nil d inst tf delta endT cur price n (by tauto)] at hb
      simp at hb
  | succ i ih =>
    intro cur price n b hb
    by_cases h2 : cur < endT
    · rw [simHistAux_eq_cons d inst tf delta endT cur price n hδ h2] at hb
      rw [List.getElem?_cons_succ] at hb
      have hrec := ih (cur + delta) (simClose price d n) (n + 1) b hb
      refine ⟨?_, ?_⟩
      · rw [hrec.1]
        push_cast
        ring
      · have := hrec.2
        push_cast at this ⊢
        linarith
    · rw [simHistAux_eq_nil d inst tf delta endT cur price n (by tauto)] at hb
      simp at hb

/-- Every step index whose time lies strictly before `endT` yields a bar:
the loop stops only at `endT`. -/
theorem simHistAux_lt_length (d : SimDraws) (inst tf : String) (delta endT : ℤ)
    (hδ : 0 < delta) :
    ∀ (k : ℕ) (cur : ℤ) (price : ℚ) (n : ℕ),
      cur + (k : ℤ) * delta < endT →
      k < (simHistAux d inst tf delta endT cur price n).length := by
  intro k
  induction k with
  | zero =>
    intro cur price n hk
    simp only [Nat.cast_zero, zero_mul, add_zero] at hk
    rw [simHistAux_eq_cons d inst tf delta endT cur price n hδ hk]
    simp
  | succ k ih =>
    intro cur price n hk
    have hknn : (0 : ℤ) ≤ ((k : ℤ) + 1) * delta :=
      mul_nonneg (by positivity) hδ.le
    have h2 : cur < endT := by
      push_cast at hk
      linarith
    rw [simHistAux_eq_cons d inst tf delta endT cur price n hδ h2]
    simp only [List.length_cons]
    have hstep : (cur + delta) + (k : ℤ) * delta < endT := by
      push_cast at hk ⊢
      linarith
    exact Nat.succ_lt_succ (ih (cur + delta) (simClose price d n) (n + 1) hstep)

/-- Simulated historical fetch while connected: the result is exactly the
bars at times `start, start + delta, start + 2 * delta, …` strictly below
`end`; the first bar's time is `start` when `start < end`; the result is
empty when `start ≥ end` (claim C3). -/
theorem claim_C3 (d : SimDraws) (inst tf : String) (delta start endT : ℤ)
    (price0 : ℚ) (htf : timeframe_to_timedelta tf = some delta)
    (hδ : 0 < delta) :
    SimulatedNinjaTraderClient.request_historical_data true d inst tf start endT
        price0 = .ok (simHistAux d inst tf delta endT start price0 0) ∧
    (∀ (i : ℕ) (hi : i < (simHistAux d inst tf delta endT start price0 0).length),
      ((simHistAux d inst tf delta endT start price0 0).get ⟨i, hi⟩).time
          = start + (i : ℤ) * delta ∧ start + (i : ℤ) * delta < endT) ∧
    (∀ k : ℕ, start + (k : ℤ) * delta < endT →
      k < (simHistAux d inst tf delta endT start price0 0).length) ∧
    (start < endT →
      (simHistAux d inst tf delta endT start price0 0).head?.map (·.time)
        = some start) ∧
    (endT ≤ start → simHistAux d inst tf delta endT start price0 0 = []) := by
  refine ⟨?_, ?_, ?_, ?_, ?_⟩
  · simp [SimulatedNinjaTraderClient.request_historical_data, htf]
  · intro i hi
    refine simHistAux_getElem_time d inst tf delta endT hδ i start price0 0 _ ?_
    rw [List.get_eq_getElem]
    exact List.getElem?_eq_getElem hi
  · intro k hk
    exact simHistAux_lt_length d inst tf delta endT hδ k start price0 0 hk
  · intro hlt
    rw [simHistAux_eq_cons d inst tf delta endT start price0 0 hδ hlt]
    simp [simBar]
  · intro hge
    exact simHistAux_eq_nil d inst tf delta endT start price0 0 (by omega)

/-- Witness for C3: timeframe "1s" (interval 1 second) over the window
`[0, 3)` produces the bars at times 0, 1, 2. -/
theorem claim_C3_witness :
    SimulatedNinjaTraderClient.request_historical_data true
        ⟨fun _ => 1, fun _ => 1, fun _ => 1 / 2, fun _ => 50⟩ "ES" "1s" 0 3 1000
      = .ok (simHistAux ⟨fun _ => 1, fun _ => 1, fun _ => 1 / 2, fun _ => 50⟩
          "ES" "1s" 1 3 0 1000 0) ∧
    (∀ (i : ℕ) (hi : i < (simHistAux ⟨fun _ => 1, fun _ => 1, fun _ => 1 / 2,
        fun _ => 50⟩ "ES" "1s" 1 3 0 1000 0).length),
      ((simHistAux ⟨fun _ => 1, fun _ => 1, fun _ => 1 / 2, fun _ => 50⟩
          "ES" "1s" 1 3 0 1000 0).get ⟨i, hi⟩).time = 0 + (i : ℤ) * 1 ∧
        0 + (i : ℤ) * 1 < 3) ∧
    (∀ k : ℕ, 0 + (k : ℤ) * 1 < 3 →
      k < (simHistAux ⟨fun _ => 1, fun _ => 1, fun _ => 1 / 2, fun _ => 50⟩
          "ES" "1s" 1 3 0 1000 0).length) ∧
    ((0 : ℤ) < 3 →
      ((simHistAux ⟨fun _ => 1, fun _ => 1, fun _ => 1 / 2, fun _ => 50⟩
          "ES" "1s" 1 3 0 1000 0).head?.map (·.time)) = some 0) ∧
    ((3 : ℤ) ≤ 0 →
      simHistAux ⟨fun _ => 1, fun _ => 1, fun _ => 1 / 2, fun _ => 50⟩
          "ES" "1s" 1 3 0 1000 0 = []) :=
  claim_C3 ⟨fun _ => 1, fun _ => 1, fun _ => 1 / 2, fun _ => 50⟩ "ES" "1s" 1 0 3
    1000 (by decide) (by decide)

theorem round2_mono {a b : ℚ} (h : a ≤ b) : round2 a ≤ round2 b := by
  unfold round2
  have h1 : round (a * 100) ≤ round (b * 100) := by
    rw [round_eq, round_eq]
    exact Int.floor_mono (by linarith)
  have h2 : ((round (a * 100) : ℤ) : ℚ) ≤ ((round (b * 100) : ℤ) : ℚ) := by
    exact_mod_cast h1
  linarith

/-- One simulated bar keeps `low ≤ open ≤ high` and `low ≤ close ≤ high`
on the rounded stored fields, given the draws' documented ranges. -/
theorem simBar_price_bounds (inst tf : String) (cur : ℤ) (price : ℚ)
    (d : SimDraws) (n : ℕ) (hu : 0 ≤ d.highOff n) (hv : 0 ≤ d.lowOff n)
    (ht : 0 ≤ d.closeFrac n ∧ d.closeFrac n ≤ 1) :
    (simBar inst tf cur price d n).low ≤ (simBar inst tf cur price d n).open_ ∧
    (simBar inst tf cur price d n).open_ ≤ (simBar inst tf cur price d n).high ∧
    (simBar inst tf cur price d n).low ≤ (simBar inst tf cur price d n).close ∧
    (simBar inst tf cur price d n).close ≤ (simBar inst tf cur price d n).high := by
  have hlo : price - d.lowOff n ≤ price := by linarith
  have hhi : price ≤ price + d.highOff n := by linarith
  have hc1 : price - d.lowOff n ≤ simClose price d n := by
    unfold simClose
    have : 0 ≤ d.closeFrac n * ((price + d.highOff n) - (price - d.lowOff n)) :=
      mul_nonneg ht.1 (by linarith)
    linarith
  have hc2 : simClose price d n ≤ price + d.highOff n := by
    unfold simClose
    have hd : 0 ≤ (price + d.highOff n) - (price - d.lowOff n) := by linarith
    have := mul_le_of_le_one_left hd ht.2
    linarith
  exact ⟨round2_mono hlo, round2_mono hhi, round2_mono hc1, round2_mono hc2⟩

/-- Every bar the simulated historical loop emits satisfies the price-range
invariant on its stored (rounded) fields. -/
theorem simHistAux_bounds (d : SimDraws) (inst tf : String) (delta endT : ℤ)
    (hδ : 0 < delta) (hu : ∀ n, 0 ≤ d.highOff n)
    (hv : ∀ n, 0 ≤ d.lowOff n)
    (ht : ∀ n, 0 ≤ d.closeFrac n ∧ d.closeFrac n ≤ 1) :
    ∀ (i : ℕ) (cur : ℤ) (price : ℚ) (n : ℕ) (b : BarData),
      (simHistAux d inst tf delta endT cur price n)[i]? = some b →
      b.low ≤ b.open_ ∧ b.open_ ≤ b.high ∧ b.low ≤ b.close ∧ b.close ≤ b.high := by
  intro i
  induction i with
  | zero =>
    intro cur price n b hb
    by_cases h2 : cur < endT
    · rw [simHistAux_eq_cons d inst tf delta endT cur price n hδ h2] at hb
      simp at hb
      subst hb
      exact simBar_price_bounds inst tf cur price d n (hu n) (hv n) (ht n)
    · rw [simHistAux_eq_nil d inst tf delta endT cur price n (by tauto)] at hb
      simp at hb
  | succ i ih =>
    intro cur price n b hb
    by_cases h2 : cur < endT
    · rw [simHistAux_eq_cons d inst tf delta endT cur price n hδ h2] at hb
      rw [List.getElem?_cons_succ] at hb
      exact ih (cur + delta) (simClose price d n) (n + 1) b hb
    · rw [simHistAux_eq_nil d inst tf delta endT cur price n (by tauto)] at hb
      simp at hb

/-- The first bar of a (non-empty) run of the loop opens at the rounded
current price. -/
theorem simHistAux_head_open (d : SimDraws) (inst tf : String) (delta endT : ℤ)
    (hδ : 0 < delta) (cur : ℤ) (price : ℚ) (n : ℕ) (b : BarData)
    (hb : (simHistAux d inst tf delta endT cur price n)[0]? = some b) :
    b.open_ = round2 price := by
  by_cases h2 : cur < endT
  · rw [simHistAux_eq_cons d inst tf delta endT cur price n hδ h2] at hb
    simp at hb
    subst hb
    rfl
  · rw [simHistAux_eq_nil d inst tf delta endT cur price n (by tauto)] at hb
    simp at hb

/-- Consecutive bars of the simulated walk chain: the later bar's stored
open equals the earlier bar's stored close (both are `round2` of the same
unrounded close the walk carries forward). -/
theorem simHistAux_consecutive (d : SimDraws) (inst tf : String)
    (delta endT : ℤ) (hδ : 0 < delta) :
    ∀ (i : ℕ) (cur : ℤ) (price : ℚ) (n : ℕ) (b b' : BarData),
      (simHistAux d inst tf delta endT cur price n)[i]? = some b →
      (simHistAux d inst tf delta endT cur price n)[i + 1]? = some b' →
      b'.open_ = b.close := by
  intro i
  induction i with
  | zero =>
    intro cur price n b b' hb hb'
    by_cases h2 : cur < endT
    · rw [simHistAux_eq_cons d inst tf delta endT cur price n hδ h2] at hb hb'
      simp at hb
      subst hb
      rw [List.getElem?_cons_succ] at hb'
      rw [simHistAux_head_open d inst tf delta endT hδ (cur + delta)
        (simClose price d n) (n + 1) b' hb']
      rfl
    · rw [simHistAux_eq_nil d inst tf delta endT cur price n (by tauto)] at hb
      simp at hb
  | succ i ih =>
    intro cur price n b b' hb hb'
    by_cases h2 : cur < endT
    · rw [simHistAux_eq_cons d inst tf delta endT cur price n hδ h2] at hb hb'
      rw [List.getElem?_cons_succ] at hb hb'
      exact ih (cur + delta) (simClose price d n) (n + 1) b b' hb hb'
    · rw [simHistAux_eq_nil d inst tf delta endT cur price n (by tauto)] at hb
      simp at hb

/-- Simulated historical bars: with the draws ranged as the code's
`random` calls document, every returned bar keeps
`low ≤ open ≤ high` and `low ≤ close ≤ high` on the rounded stored
fields, and each bar's open equals the previous bar's close (claim C4). -/
theorem claim_C4 (d : SimDraws) (inst tf : String) (delta start endT : ℤ)
    (price0 : ℚ)
    (hu : ∀ n, 0 ≤ d.highOff n ∧ d.highOff n ≤ 5)
    (hv : ∀ n, 0 ≤ d.lowOff n ∧ d.lowOff n ≤ 5)
    (ht : ∀ n, 0 ≤ d.closeFrac n ∧ d.closeFrac n ≤ 1)
    (hδ : 0 < delta) :
    (∀ (i : ℕ) (b : BarData),
      (simHistAux d inst tf delta endT start price0 0)[i]? = some b →
      b.low ≤ b.open_ ∧ b.open_ ≤ b.high ∧ b.low ≤ b.close ∧ b.close ≤ b.high) ∧
    (∀ (i : ℕ) (b b' : BarData),
      (simHistAux d inst tf delta endT start price0 0)[i]? = some b →
      (simHistAux d inst tf delta endT start price0 0)[i + 1]? = some b' →
      b'.open_ = b.close) := by
  constructor
  · intro i b hb
    exact simHistAux_bounds d inst tf delta endT hδ (fun n => (hu n).1)
      (fun n => (hv n).1) ht i start price0 0 b hb
  · intro i b b' hb hb'
    exact simHistAux_consecutive d inst tf delta endT hδ i start price0 0 b b' hb hb'

/-- Witness for C4 at constant concrete draws over the window `[0, 3)`. -/
theorem claim_C4_witness :
    (∀ (i : ℕ) (b : BarData),
      (simHistAux ⟨fun _ => 1, fun _ => 1, fun _ => 1 / 2, fun _ => 50⟩
          "ES" "1s" 1 3 0 1000 0)[i]? = some b →
      b.low ≤ b.open_ ∧ b.open_ ≤ b.high ∧ b.low ≤ b.close ∧ b.close ≤ b.high) ∧
    (∀ (i : ℕ) (b b' : BarData),
      (simHistAux ⟨fun _ => 1, fun _ => 1, fun _ => 1 / 2, fun _ => 50⟩
          "ES" "1s" 1 3 0 1000 0)[i]? = some b →
      (simHistAux ⟨fun _ => 1, fun _ => 1, fun _ => 1 / 2, fun _ => 50⟩
          "ES" "1s" 1 3 0 1000 0)[i + 1]? = some b' →
      b'.open_ = b.close) :=
  claim_C4 ⟨fun _ => 1, fun _ => 1, fun _ => 1 / 2, fun _ => 50⟩ "ES" "1s" 1 0 3
    1000 (fun _ => ⟨by norm_num, by norm_num⟩) (fun _ => ⟨by norm_num, by norm_num⟩)
    (fun _ => ⟨by norm_num, by norm_num⟩) (by decide)

/-- While `is_connected` is false: `subscribe_market_data` raises
`ConnectionFailure` leaving the subscription set untouched (no loop is
spawned), and `request_historical_data` on both variants raises
`ConnectionFailure` producing no bars and leaving the commands directory
untouched (claim C5). -/
theorem claim_C5 (s : SimState) (inst : String) (subId : ℕ) (d : SimDraws)
    (tf : String) (start endT : ℤ) (price0 : ℚ) (cfg : KinetickConfig)
    (fs : List (String × String)) (commandId : String)
    (env : ℕ → Option String) (maxPolls : ℕ) (startD endD : String)
    (h : s.connected = false) :
    SimulatedNinjaTraderClient.subscribe_market_data s inst subId
        = (.error .connectionFailure, s) ∧
    SimulatedNinjaTraderClient.request_historical_data s.connected d inst tf
        start endT price0 = .error .connectionFailure ∧
    KinetickEODClient.request_historical_data s.connected cfg fs commandId env
        maxPolls inst tf startD endD = (.error .connectionFailure, fs) := by
  refine ⟨?_, ?_, ?_⟩ <;>
    simp [SimulatedNinjaTraderClient.subscribe_market_data,
      SimulatedNinjaTraderClient.request_historical_data,
      KinetickEODClient.request_historical_data, h]

/-- Witness for C5 on the freshly constructed (disconnected) simulated
client state. -/
theorem claim_C5_witness :
    SimulatedNinjaTraderClient.subscribe_market_data ⟨false, false, []⟩ "ES" 0
        = (.error .connectionFailure, ⟨false, false, []⟩) ∧
    SimulatedNinjaTraderClient.request_historical_data
        (SimState.connected ⟨false, false, []⟩)
        ⟨fun _ => 1, fun _ => 1, fun _ => 1 / 2, fun _ => 50⟩ "ES" "1m" 0 60 1000
        = .error .connectionFailure ∧
    KinetickEODClient.request_historical_data
        (SimState.connected ⟨false, false, []⟩) ⟨"commands", "export"⟩ [] "abc"
        (fun _ => none) 3 "ES" "1D" "2024-01-01" "2024-01-31"
        = (.error .connectionFailure, []) :=
  claim_C5 ⟨false, false, []⟩ "ES" 0
    ⟨fun _ => 1, fun _ => 1, fun _ => 1 / 2, fun _ => 50⟩ "1m" 0 60 1000
    ⟨"commands", "export"⟩ [] "abc" (fun _ => none) 3 "2024-01-01" "2024-01-31"
    rfl

/-- After `disconnect()` then `connect()`, the client is connected again
but the connector-wide stop event is still set: no operation (connect,
subscribe, cancel) ever clears it, `disconnect` sets it, and a generation
loop whose connector-wide flag reads true at its first check delivers no
tick (claim C9). -/
theorem claim_C9 (s : SimState) (fuel k : ℕ) (persStop connStop : ℕ → Bool)
    (hconn : connStop k = true) :
    (SimulatedNinjaTraderClient.connect
        (SimulatedNinjaTraderClient.disconnect s)).connected = true ∧
    (SimulatedNinjaTraderClient.connect
        (SimulatedNinjaTraderClient.disconnect s)).stop_event = true ∧
    (∀ t : SimState,
      (SimulatedNinjaTraderClient.connect t).stop_event = t.stop_event) ∧
    (∀ t : SimState,
      (SimulatedNinjaTraderClient.disconnect t).stop_event = true) ∧
    (∀ (t : SimState) (i : String) (j : ℕ),
      ((SimulatedNinjaTraderClient.subscribe_market_data t i j).2).stop_event
        = t.stop_event) ∧
    (∀ (t : SimState) (j : ℕ),
      (SimulatedNinjaTraderClient.cancel t j).stop_event = t.stop_event) ∧
    streamDeliveredCount fuel persStop connStop k = 0 := by
  refine ⟨rfl, rfl, fun t => rfl, fun t => rfl, ?_, fun t j => rfl, ?_⟩
  · intro t i j
    unfold SimulatedNinjaTraderClient.subscribe_market_data
    by_cases hc : t.connected <;> simp [hc]
  · cases fuel with
    | zero => rfl
    | succ f => simp [streamDeliveredCount, hconn]

/-- Witness for C9 at a concrete state with the connector-wide flag read
as constantly true. -/
theorem claim_C9_witness :
    (SimulatedNinjaTraderClient.connect
        (SimulatedNinjaTraderClient.disconnect ⟨true, false, [("ES", 0)]⟩)).connected
        = true ∧
    (SimulatedNinjaTraderClient.connect
        (SimulatedNinjaTraderClient.disconnect ⟨true, false, [("ES", 0)]⟩)).stop_event
        = true ∧
    (∀ t : SimState,
      (SimulatedNinjaTraderClient.connect t).stop_event = t.stop_event) ∧
    (∀ t : SimState,
      (SimulatedNinjaTraderClient.disconnect t).stop_event = true) ∧
    (∀ (t : SimState) (i : String) (j : ℕ),
      ((SimulatedNinjaTraderClient.subscribe_market_data t i j).2).stop_event
        = t.stop_event) ∧
    (∀ (t : SimState) (j : ℕ),
      (SimulatedNinjaTraderClient.cancel t j).stop_event = t.stop_event) ∧
    streamDeliveredCount 5 (fun _ => false) (fun _ => true) 0 = 0 :=
  claim_C9 ⟨true, false, [("ES", 0)]⟩ 5 0 (fun _ => false) (fun _ => true) rfl

/-- Fetch filters test truthiness, not presence: an empty instrument (or
timeframe) string filters nothing, and `limit = 0` applies no limit at
all (claim C10). -/
theorem claim_C10 (s : StorageState) (inst tf : Option String)
    (start endT limit : Option ℤ) :
    fetch_ticks s (some "") start endT limit
        = fetch_ticks s none start endT limit ∧
    fetch_bars s (some "") tf start endT limit
        = fetch_bars s none tf start endT limit ∧
    fetch_bars s inst (some "") start endT limit
        = fetch_bars s inst none start endT limit ∧
    fetch_ticks s inst start endT (some 0)
        = fetch_ticks s inst start endT none ∧
    fetch_bars s inst tf start endT (some 0)
        = fetch_bars s inst tf start endT none := by
  have hs : strTruthy (some "") = strTruthy none := by decide
  have hl : intTruthy (some 0) = intTruthy none := by decide
  have ht : tickRowMatches (some "") start endT = tickRowMatches none start endT := by
    funext r
    simp [tickRowMatches, hs]
  have hb1 : barRowMatches (some "") tf start endT
      = barRowMatches none tf start endT := by
    funext r
    simp [barRowMatches, hs]
  have hb2 : barRowMatches inst (some "") start endT
      = barRowMatches inst none start endT := by
    funext r
    simp [barRowMatches, hs]
  have hlim : ∀ {α : Type} (rows : List α),
      applyLimit (some 0) rows = applyLimit none rows := by
    intro α rows
    simp [applyLimit, intTruthy]
  refine ⟨?_, ?_, ?_, ?_, ?_⟩ <;>
    simp only [fetch_ticks, fetch_bars, ht, hb1, hb2, hlim]

/-- Storage round-trip: row conversion is the identity on every tick and
bar (so every field, the bar's timeframe string included, survives save
followed by fetch), the spec's "ES" tick scenario returns exactly one
record with `last == 1.25` (= 5/4), optional fields absent on insert come
back absent, and a bar saved with timeframe "5m" is fetched back
unchanged (claim C8). -/
theorem claim_C8 :
    (∀ t : TickData, row_to_tick (tick_to_row t) = t) ∧
    (∀ b : BarData, row_to_bar (bar_to_row b) = b) ∧
    fetch_ticks (save_ticks ⟨[], []⟩
        [{ time := 0, bid := some 1, ask := some (3 / 2), last := some (5 / 4),
           volume := some 10, instrument := "ES" }]).2
        (some "ES") none none none
      = [{ time := 0, bid := some 1, ask := some (3 / 2), last := some (5 / 4),
           volume := some 10, instrument := "ES" }] ∧
    (fetch_ticks (save_ticks ⟨[], []⟩
        [{ time := 0, bid := some 1, ask := some (3 / 2), last := some (5 / 4),
           volume := some 10, instrument := "ES" }]).2
        (some "ES") none none none).map (fun t => t.last) = [some (5 / 4)] ∧
    fetch_ticks (save_ticks ⟨[], []⟩
        [{ time := 0, bid := none, ask := none, last := none, volume := none,
           instrument := "ES" }]).2 (some "ES") none none none
      = [{ time := 0, bid := none, ask := none, last := none, volume := none,
           instrument := "ES" }] ∧
    fetch_bars (save_bars ⟨[], []⟩
        [{ time := 0, open_ := 1, high := 2, low := 1 / 2, close := 3 / 2,
           volume := 10, instrument := "ES", timeframe := "5m" }]).2
        (some "ES") none none none none
      = [{ time := 0, open_ := 1, high := 2, low := 1 / 2, close := 3 / 2,
           volume := 10, instrument := "ES", timeframe := "5m" }] := by
  refine ⟨fun t => rfl, fun b => rfl, ?_, ?_, ?_, ?_⟩ <;>
    simp [fetch_ticks, fetch_bars, save_ticks, save_bars, tick_to_row,
      bar_to_row, row_to_tick, row_to_bar, tickRowMatches, barRowMatches,
      strTruthy, dtTruthy, intTruthy, sortByTime, insertByTime, applyLimit]

/-- When the export file exists at none of the polls the deadline allows,
`_wait_for_export` raises `Timeout`. -/
theorem wait_for_export_timeout (env : ℕ → Option String) (inst : String) :
    ∀ (fuel k : ℕ), (∀ j, j < fuel → env (k + j) = none) →
      wait_for_export env inst fuel k = .error .timeout := by
  intro fuel
  induction fuel with
  | zero => intro k h; rfl
  | succ f ih =>
    intro k h
    have h0 : env k = none := h 0 (Nat.succ_pos f)
    rw [wait_for_export, h0]
    refine ih (k + 1) (fun j hj => ?_)
    rw [show k + 1 + j = k + (j + 1) by omega]
    exact h (j + 1) (Nat.succ_lt_succ hj)

/-- Removing a path removes every entry under it. -/
theorem fsLookup_remove (fs : List (String × String)) (path : String) :
    fsLookup (fsRemove fs path) path = none := by
  induction fs with
  | nil => rfl
  | cons p rest ih =>
    by_cases h : p.1 == path
    · simpa [fsRemove, List.filter_cons, bne, h] using ih
    · simpa [fsRemove, fsLookup, List.filter_cons, List.find?_cons, bne, h]
        using ih

/-- File-handshake fetch while connected: with no export file inside the
polling window the call fails with `Timeout`, and in every outcome — for
any export environment — the command file written at the start no longer
exists when the call returns or raises (claim C1). -/
theorem claim_C1 (cfg : KinetickConfig) (fs : List (String × String))
    (commandId : String) (env : ℕ → Option String) (maxPolls : ℕ)
    (inst tf startD endD : String)
    (henv : ∀ j, j < maxPolls → env j = none) :
    (KinetickEODClient.request_historical_data true cfg fs commandId env
        maxPolls inst tf startD endD).1 = .error .timeout ∧
    (∀ env2 : ℕ → Option String,
      fsLookup (KinetickEODClient.request_historical_data true cfg fs commandId
          env2 maxPolls inst tf startD endD).2 (cmd_path cfg commandId) = none) := by
  constructor
  · exact wait_for_export_timeout env inst maxPolls 0
      (fun j hj => by simpa using henv j hj)
  · intro env2
    exact fsLookup_remove _ _

/-- Witness for C1: a three-poll window in which the agent never writes
the export file. -/
theorem claim_C1_witness :
    (KinetickEODClient.request_historical_data true ⟨"commands", "export"⟩ []
        "abc" (fun _ => none) 3 "ES" "1D" "2024-01-01" "2024-01-31").1
      = .error .timeout ∧
    (∀ env2 : ℕ → Option String,
      fsLookup (KinetickEODClient.request_historical_data true
          ⟨"commands", "export"⟩ [] "abc" env2 3 "ES" "1D" "2024-01-01"
          "2024-01-31").2 (cmd_path ⟨"commands", "export"⟩ "abc") = none) :=
  claim_C1 ⟨"commands", "export"⟩ [] "abc" (fun _ => none) 3 "ES" "1D"
    "2024-01-01" "2024-01-31" (fun _ _ => rfl)

/-- Every bar `_parse_export`'s row loop produces is tagged with the
requested instrument and the fixed timeframe label "1D". -/
theorem parseRows_tagged (header : List String) (inst : String) :
    ∀ (rows : List (List String)) (bars : List BarData),
      parseRows header inst rows = .ok bars →
      ∀ b ∈ bars, b.instrument = inst ∧ b.timeframe = "1D" := by
  intro rows
  induction rows with
  | nil =>
    intro bars h b hb
    simp only [parseRows, Except.ok.injEq] at h
    subst h
    simp at hb
  | cons fields rest ih =>
    intro bars h b hb
    rw [parseRows] at h
    split at h
    · exact ih bars h b hb
    · split at h
      · split at h
        · rename_i bs hrec
          simp only [Except.ok.injEq] at h
          subst h
          rcases List.mem_cons.mp hb with hb | hb
          · subst hb; exact ⟨rfl, rfl⟩
          · exact ih bs hrec b hb
        · exact absurd h (by simp)
      · exact absurd h (by simp)

/-- Tagging carried through the polling loop: any successful
`_wait_for_export` result consists of bars tagged with the requested
instrument and "1D". -/
theorem wait_for_export_tagged (env : ℕ → Option String) (inst : String) :
    ∀ (fuel k : ℕ) (bars : List BarData),
      wait_for_export env inst fuel k = .ok bars →
      ∀ b ∈ bars, b.instrument = inst ∧ b.timeframe = "1D" := by
  intro fuel
  induction fuel with
  | zero => intro k bars h; simp [wait_for_export] at h
  | succ f ih =>
    intro k bars h
    rw [wait_for_export] at h
    split at h
    · rename_i content heq
      exact parseRows_tagged (csvHeader content) inst (csvRows content) bars h
    · exact ih (k + 1) bars h

/-- An export file that appears with a parsable header but zero data rows
yields `ok []` (no error), and every bar any successful call returns
carries the requested instrument and the timeframe label "1D" regardless
of the timeframe argument (claim C7). -/
theorem claim_C7 (cfg : KinetickConfig) (fs : List (String × String))
    (commandId : String) (env : ℕ → Option String) (maxPolls : ℕ)
    (content inst tf startD endD : String)
    (henv : env 0 = some content) (hm : 0 < maxPolls)
    (hrows : csvRows content = []) :
    (KinetickEODClient.request_historical_data true cfg fs commandId env
        maxPolls inst tf startD endD).1 = .ok [] ∧
    (∀ (tf2 : String) (bars : List BarData),
      (KinetickEODClient.request_historical_data true cfg fs commandId env
          maxPolls inst tf2 startD endD).1 = .ok bars →
      ∀ b ∈ bars, b.instrument = inst ∧ b.timeframe = "1D") := by
  constructor
  · show wait_for_export env inst maxPolls 0 = .ok []
    cases maxPolls with
    | zero => omega
    | succ m =>
      rw [wait_for_export, henv]
      show parseRows (csvHeader content) inst (csvRows content) = .ok []
      rw [hrows]
      rfl
  · intro tf2 bars h
    exact wait_for_export_tagged env inst maxPolls 0 bars h

/-- Witness for C7: a header-only export file delivered at the first
poll. -/
theorem claim_C7_witness :
    (KinetickEODClient.request_historical_data true ⟨"commands", "export"⟩ []
        "abc" (fun _ => some "Date,Open,High,Low,Close,Volume") 1 "ES" "5m"
        "2024-01-01" "2024-01-31").1 = .ok [] ∧
    (∀ (tf2 : String) (bars : List BarData),
      (KinetickEODClient.request_historical_data true ⟨"commands", "export"⟩ []
          "abc" (fun _ => some "Date,Open,High,Low,Close,Volume") 1 "ES" tf2
          "2024-01-01" "2024-01-31").1 = .ok bars →
      ∀ b ∈ bars, b.instrument = "ES" ∧ b.timeframe = "1D") :=
  claim_C7 ⟨"commands", "export"⟩ [] "abc"
    (fun _ => some "Date,Open,High,Low,Close,Volume") 1
    "Date,Open,High,Low,Close,Volume" "ES" "5m" "2024-01-01" "2024-01-31" rfl
    (by decide) (by decide)

/-- Counterexample to C6 as stated: an export file whose header spells
the six names in lower case. The Date column is still found (the code
tries exactly the two casings "Date" and "date"), but Open/High/Low/
Close/Volume are matched case-sensitively, so the row's values 5, 6, 4,
5.5, 100 are NOT used — every numeric field defaults to 0 instead of the
value under its column (0 ≠ 5). -/
theorem claim_C6_counterexample :
    parse_export "date,open,high,low,close,volume\n2024-01-02,5,6,4,5.5,100" "ES"
      = .ok [{ time := 20240102, open_ := 0, high := 0, low := 0, close := 0,
               volume := 0, instrument := "ES", timeframe := "1D" }] ∧
    (0 : ℚ) ≠ 5 := by
  constructor
  · rfl
  · norm_num

/-- Amended C6: the Date column is matched in exactly the two casings
"Date" and "date"; the numeric columns Open/High/Low/Close/Volume are
matched case-sensitively in exactly the source's title casing. For a file
whose header uses one of the two Date casings and the title-cased numeric
names, each data row becomes a Bar carrying the values under those
columns (missing numeric fields defaulting to 0); a header in any other
casing is treated as missing — the row is skipped when Date is unmatched,
and an unmatched numeric column yields the 0 default. -/
theorem claim_C6_amended (dk : String) (hdk : dk = "Date" ∨ dk = "date")
    (inst ds os hs ls cs vs : String) (t : ℤ) (o h l c v : ℚ)
    (hd : parseDate ds = some t)
    (ho : parseFloat os = some o) (hh : parseFloat hs = some h)
    (hl : parseFloat ls = some l) (hc : parseFloat cs = some c)
    (hv : parseFloat vs = some v) :
    parseRows [dk, "Open", "High", "Low", "Close", "Volume"] inst
        [[ds, os, hs, ls, cs, vs]]
      = .ok [{ time := t, open_ := o, high := h, low := l, close := c,
               volume := ratTruncate v, instrument := inst, timeframe := "1D" }] ∧
    parseRows ["DATE", "Open", "High", "Low", "Close", "Volume"] inst
        [[ds, os, hs, ls, cs, vs]] = .ok [] ∧
    getNum ["Date", "open", "high", "low", "close", "volume"]
        [ds, os, hs, ls, cs, vs] "Open" = some 0 := by
  have hpd0 : parseDate "" = none := rfl
  have hpf0 : parseFloat "" = none := rfl
  have hds : ds ≠ "" := by
    intro he
    rw [he, hpd0] at hd
    simp at hd
  have hos : os ≠ "" := by
    intro he
    rw [he, hpf0] at ho
    simp at ho
  have hhs : hs ≠ "" := by
    intro he
    rw [he, hpf0] at hh
    simp at hh
  have hls : ls ≠ "" := by
    intro he
    rw [he, hpf0] at hl
    simp at hl
  have hcs : cs ≠ "" := by
    intro he
    rw [he, hpf0] at hc
    simp at hc
  have hvs : vs ≠ "" := by
    intro he
    rw [he, hpf0] at hv
    simp at hv
  refine ⟨?_, ?_, ?_⟩
  · rcases hdk with hdk | hdk <;> subst hdk <;>
      simp [parseRows, getDateValue, rowGet, getNum, rowNums, List.find?,
        hd, ho, hh, hl, hc, hv, hds, hos, hhs, hls, hcs, hvs]
  · simp [parseRows, getDateValue, rowGet, List.find?]
  · simp [getNum, rowGet, List.find?]

/-- Witness for the amended C6 at a concrete lower-case "date" header and
the row 2024-01-02, 5, 6, 4, 5, 100. -/
theorem claim_C6_witness :
    parseRows ["date", "Open", "High", "Low", "Close", "Volume"] "ES"
        [["2024-01-02", "5", "6", "4", "5", "100"]]
      = .ok [{ time := 20240102, open_ := 5, high := 6, low := 4,
               close := 5, volume := ratTruncate 100, instrument := "ES",
               timeframe := "1D" }] ∧
    parseRows ["DATE", "Open", "High", "Low", "Close", "Volume"] "ES"
        [["2024-01-02", "5", "6", "4", "5", "100"]] = .ok [] ∧
    getNum ["Date", "open", "high", "low", "close", "volume"]
        ["2024-01-02", "5", "6", "4", "5", "100"] "Open" = some 0 :=
  claim_C6_amended "date" (Or.inr rfl) "ES" "2024-01-02" "5" "6" "4" "5" "100"
    20240102 5 6 4 5 100 (by decide) (by decide) (by decide) (by decide)
    (by decide) (by decide)

end NtData
